import Mathlib

/-!
Shallow embedding of the core helpers of the elevenify repository
(`src/elevenify.py` and `src/say2file.py`): line classification and
segmentation (`split_text`), slugification (`slugify`), unique filename
generation (`get_unique_filename`), credit estimation
(`estimate_convertible_lines`) and audio-format resolution
(`get_output_format`), together with theorems settling the spec claims.

Strings are modelled with Lean `String`/`List Char`; Python's whitespace
handling is modelled with `Char.isWhitespace` (faithful on ASCII input).
The Python floats involved are all exact constants: sample rates are
exact multiples of 0.01 kHz and are carried as integer hundredths of
kHz, and credit amounts are exact multiples of 0.5 credits and are
carried as integer half-credits (both conventions preserve every sum,
product and comparison the scripts perform, and the corresponding IEEE
doubles are exact at these magnitudes as well).  The filesystem observed
by `os.path.exists` is modelled as a boolean predicate on filenames.
-/

namespace Elevenify

/-- Python `str.strip()` over a character list: remove whitespace from
both ends.  (Structurally recursive so that the kernel can evaluate it;
core `String.trim` is opaque to kernel reduction.) -/
def trimL (l : List Char) : List Char :=
  (l.dropWhile Char.isWhitespace).rdropWhile Char.isWhitespace

/-- Python `s.strip()` on a string. -/
def trimS (s : String) : String :=
  String.mk (trimL s.data)

/-- Python `str.split(sep)` for a one-character separator: split on every
occurrence, keeping empty pieces (`"".split(sep) == ['']`). -/
def splitOnChar (sep : Char) : List Char → List (List Char)
  | [] => [[]]
  | c :: rest =>
    let r := splitOnChar sep rest
    if c = sep then [] :: r else (c :: r.headD []) :: r.tail

/-- Python `'\n'.join(xs)`. -/
def joinLines : List String → String
  | [] => ""
  | [x] => x
  | x :: xs => x ++ "\n" ++ joinLines xs

/-- Python `line.split('#', 1)[0].strip()`: drop everything from the first
`#` onward, then trim surrounding whitespace. -/
def stripComment (line : String) : String :=
  String.mk (trimL (line.data.takeWhile fun c => c ≠ '#'))

/-- Python `text.strip().split('\n')`: the physical lines of the input text. -/
def textLines (text : String) : List String :=
  (splitOnChar '\n' (trimL text.data)).map String.mk

/-- Python `enumerate(xs, n)`: pair every element with its index counted from `n`. -/
def numberFrom : Nat → List α → List (Nat × α)
  | _, [] => []
  | n, a :: as => (n, a) :: numberFrom (n + 1) as

/-- Python `re.split(r'(?<=[.!?])\s+', ...)` over characters, with fuel so
that the recursion is structural (the callers pass the input length as
fuel, which the loop never exhausts because every step consumes at least
one character).  The accumulator holds the current sentence reversed; a
run of whitespace whose preceding character is `.`, `!` or `?` ends the
sentence and is consumed entirely. -/
def sentSplitGo : Nat → List Char → List Char → List (List Char)
  | _, acc, [] => [acc.reverse]
  | 0, acc, rest => [acc.reverse ++ rest]
  | fuel + 1, acc, c :: rest =>
    if (c = '.' ∨ c = '!' ∨ c = '?') ∧ (rest.headD ' ').isWhitespace ∧ rest ≠ [] then
      (c :: acc).reverse :: sentSplitGo fuel [] (rest.dropWhile Char.isWhitespace)
    else
      sentSplitGo fuel (c :: acc) rest

/-- Python `re.split(r'(?<=[.!?])\s+', t.strip())` as used by the segmenter
fallback: sentence split of the trimmed text. -/
def sentencesOf (t : String) : List String :=
  (sentSplitGo (trimL t.data).length [] (trimL t.data)).map String.mk

/-! ### split_text (src/elevenify.py lines 97-118) -/

/-- The main loop of `split_text` in `src/elevenify.py` (lines 103-112):
walk the physical lines keeping a line counter `ln` and a sample counter
`sn`; every non-empty stripped line increments the sample counter, and is
emitted only when its line number lies in `[s, l]`.  Returns the emitted
segments together with the final value of the sample counter. -/
def segLoopE (s l : Nat) : List String → Nat → Nat → List (Nat × String) × Nat
  | [], _, sn => ([], sn)
  | line :: rest, ln, sn =>
    let c := stripComment line
    if c = "" then segLoopE s l rest (ln + 1) sn
    else
      let r := segLoopE s l rest (ln + 1) (sn + 1)
      if ln < s ∨ l < ln then r
      else ((sn + 1, c) :: r.1, r.2)

/-- The fallback sentence source of `split_text` in `src/elevenify.py`
(line 115): the stripped contents of the in-range, non-empty lines joined
with newlines. -/
def fallbackSourceE (s l : Nat) (lines : List String) : String :=
  joinLines
    (((numberFrom 1 lines).filterMap fun p =>
      if s ≤ p.1 ∧ p.1 ≤ l ∧ stripComment p.2 ≠ "" then some (stripComment p.2)
      else none))

/-- `split_text(text, start_line, last_line)` from `src/elevenify.py`
(lines 97-118), fallback included. -/
def splitTextE (text : String) (s l : Nat) : List (Nat × String) :=
  let lines := textLines text
  let r := segLoopE s l lines 1 0
  if r.1.isEmpty then
    let sentences := sentencesOf (fallbackSourceE s l lines)
    (numberFrom 0 sentences).filterMap fun p =>
      if trimS p.2 ≠ "" then some (r.2 + p.1 + 1, p.2) else none
  else r.1

/-! ### split_text (src/say2file.py lines 38-61) -/

/-- The main loop of `split_text` in `src/say2file.py` (lines 45-55): same
global sample counting, but only a lower line bound `s`. -/
def segLoopS (s : Nat) : List String → Nat → Nat → List (Nat × String) × Nat
  | [], _, sn => ([], sn)
  | line :: rest, ln, sn =>
    let c := stripComment line
    if c = "" then segLoopS s rest (ln + 1) sn
    else if ln < s then segLoopS s rest (ln + 1) (sn + 1)
    else
      let r := segLoopS s rest (ln + 1) (sn + 1)
      ((sn + 1, c) :: r.1, r.2)

/-- The fallback sentence source of `split_text` in `src/say2file.py`
(line 58). -/
def fallbackSourceS (s : Nat) (lines : List String) : String :=
  joinLines
    (((numberFrom 1 lines).filterMap fun p =>
      if s ≤ p.1 ∧ stripComment p.2 ≠ "" then some (stripComment p.2)
      else none))

/-- `split_text(text, start_line)` from `src/say2file.py` (lines 38-61). -/
def splitTextS (text : String) (s : Nat) : List (Nat × String) :=
  let lines := textLines text
  let r := segLoopS s lines 1 0
  if r.1.isEmpty then
    let sentences := sentencesOf (fallbackSourceS s lines)
    (numberFrom 0 sentences).filterMap fun p =>
      if trimS p.2 ≠ "" then some (r.2 + p.1 + 1, p.2) else none
  else r.1

/-! ### The Line Classifier, stated declaratively (spec section 4.1) -/

/-- The Line Classifier: given `(line_number, raw_line)` pairs, keep the
lines whose stripped content is non-empty and tag each with the next
sample number, counting on from `sn`.  Entries are
`(line_number, sample_number, content)`. -/
def contentWithSamples : Nat → List (Nat × String) → List (Nat × Nat × String)
  | _, [] => []
  | sn, (ln, line) :: rest =>
    let c := stripComment line
    if c = "" then contentWithSamples sn rest
    else (ln, sn + 1, c) :: contentWithSamples (sn + 1) rest

/-- All content lines of a text with their line and sample numbers. -/
def contentEntries (lines : List String) : List (Nat × Nat × String) :=
  contentWithSamples 0 (numberFrom 1 lines)

/-- Modelled from the spec: the sentence source the fallback is claimed to
use — the non-comment content of the FULL text, every content line of the
whole text joined with newline, ignoring the line-range filter. -/
def fullContentSource (lines : List String) : String :=
  joinLines
    ((numberFrom 1 lines).filterMap fun p =>
      if stripComment p.2 ≠ "" then some (stripComment p.2) else none)

/-! ### slugify (src/elevenify.py lines 120-124, src/say2file.py lines 63-70) -/

/-- Characters kept by the slug: the regex class `[a-z0-9.-]`. -/
def isSlugChar (c : Char) : Bool :=
  decide (('a' ≤ c ∧ c ≤ 'z') ∨ ('0' ≤ c ∧ c ≤ '9') ∨ c = '.' ∨ c = '-')

/-- One character of Python `re.sub(r'[^a-z0-9.-]', '-', ...)`. -/
def slugChar (c : Char) : Char :=
  if isSlugChar c then c else '-'

/-- Python `re.sub(r'-+', '-', ...)`: collapse every run of hyphens to one. -/
def collapseDashes : List Char → List Char
  | [] => []
  | [c] => [c]
  | c :: d :: rest =>
    if c = '-' ∧ d = '-' then collapseDashes (d :: rest)
    else c :: collapseDashes (d :: rest)

/-- `slugify` over character lists: lowercase, replace characters outside
`[a-z0-9.-]` with `-`, collapse hyphen runs, strip hyphens at both ends. -/
def slugList (l : List Char) : List Char :=
  ((collapseDashes ((l.map Char.toLower).map slugChar)).dropWhile (· == '-')).rdropWhile (· == '-')

/-- `slugify(text)` from `src/elevenify.py` lines 120-124. -/
def slugify (s : String) : String :=
  String.mk (slugList s.data)

end Elevenify

namespace Elevenify

/-! ### Credit estimation (src/elevenify.py lines 41-95) -/

/-- `get_model_credit_cost(model)` from `src/elevenify.py` lines 41-45:
`0.5` credits per character for `eleven_turbo_v2`, `1.0` otherwise.
Credits are modelled throughout in half-credit units, so these costs are
the integers 1 and 2: every quantity the estimator manipulates is an
exact multiple of half a credit, and doubling preserves all sums and
comparisons (the Python floats are exact on these values as well). -/
def getModelCreditCost (model : String) : ℤ :=
  if model = "eleven_turbo_v2" then 1 else 2

/-- The report dictionary returned by `estimate_convertible_lines`
(src/elevenify.py lines 83-92).  `lines`/`characters`/`credits_required`
are the affordable counters, `full_file_*` the in-range totals.  All
credit amounts are in half-credit units (see `getModelCreditCost`);
`credits_remaining` is an integer because `character_limit -
character_count` can be negative. -/
structure CreditEstimate where
  credits_remaining : ℤ
  credit_cost : ℤ
  lines : Nat
  characters : Nat
  credits_required : ℤ
  full_file_lines : Nat
  full_file_characters : Nat
  full_file_credits : ℤ
  deriving Repr, DecidableEq

/-- The loop of `estimate_convertible_lines` (src/elevenify.py lines 63-81):
skip out-of-range lines, strip comments/whitespace, skip empty results;
each remaining line is added to the in-range totals unconditionally and to
the affordable counters only when its cost still fits in the remaining
credits. -/
def estLoop (s l : Nat) (cost r : ℤ) : List String → Nat → CreditEstimate → CreditEstimate
  | [], _, st => st
  | line :: rest, ln, st =>
    if ln < s ∨ l < ln then estLoop s l cost r rest (ln + 1) st
    else
      let c := stripComment line
      if c = "" then estLoop s l cost r rest (ln + 1) st
      else
        let chars := c.length
        let lineCredits := (chars : ℤ) * cost
        let st1 :=
          { st with
            full_file_lines := st.full_file_lines + 1
            full_file_characters := st.full_file_characters + chars
            full_file_credits := st.full_file_credits + lineCredits }
        let st2 :=
          if st.credits_required + lineCredits ≤ r then
            { st1 with
              lines := st1.lines + 1
              characters := st1.characters + chars
              credits_required := st1.credits_required + lineCredits }
          else st1
        estLoop s l cost r rest (ln + 1) st2

/-- `estimate_convertible_lines(client, text, start_line, last_line, model)`
from `src/elevenify.py` lines 47-95, with the remaining credits queried
from the subscription passed in as `r`. -/
def estimateConvertibleLines (text : String) (s l : Nat) (model : String) (r : ℤ) :
    CreditEstimate :=
  let cost := getModelCreditCost model
  estLoop s l cost r (textLines text) 1
    { credits_remaining := r, credit_cost := cost, lines := 0, characters := 0,
      credits_required := 0, full_file_lines := 0, full_file_characters := 0,
      full_file_credits := 0 }

/-- The stripped contents of the in-range content lines, in order, as the
estimator enumerates them (range check first, then strip, then drop empties). -/
def inRangeContents (s l : Nat) (pairs : List (Nat × String)) : List String :=
  pairs.filterMap fun p =>
    if s ≤ p.1 ∧ p.1 ≤ l then
      (if stripComment p.2 = "" then none else some (stripComment p.2))
    else none

/-- The greedy affordable selection the estimator actually performs: walk
the character counts in order with a running total `acc`, keeping every
line that still fits in the budget `r` and skipping (not stopping at) the
ones that do not. -/
def greedySelect (cost r : ℤ) : ℤ → List Nat → List Nat
  | _, [] => []
  | acc, ch :: rest =>
    if acc + (ch : ℤ) * cost ≤ r then ch :: greedySelect cost r (acc + (ch : ℤ) * cost) rest
    else greedySelect cost r acc rest

/-- Modelled from the spec claim: the stop-at-first-overrun affordable
counters the claim describes — take lines while they fit, and at the
first line whose cost would overrun the budget exclude it and everything
after it. -/
def affordableUntilFirstOverrun (cost : ℤ) : ℤ → List Nat → Nat × Nat × ℤ
  | _, [] => (0, 0, 0)
  | r, ch :: rest =>
    if (ch : ℤ) * cost ≤ r then
      let t := affordableUntilFirstOverrun cost (r - (ch : ℤ) * cost) rest
      (t.1 + 1, t.2.1 + ch, t.2.2 + (ch : ℤ) * cost)
    else (0, 0, 0)

/-! ### Format resolution (src/elevenify.py lines 203-236, src/say2file.py
lines 128-161) -/

/-- The fixed `valid_formats` table from `get_output_format`
(src/elevenify.py lines 205-233): container type to a list of
`(rate, (format_id, khz, rate_value, extension))` entries in insertion
order.  Sample rates (`khz`) are modelled in hundredths of kHz so that
the Python float constants stay exact integers: `22.05` is `2205`,
`44.1` is `4410`, `8.0` is `800`, and so on. -/
def validFormats : List (String × List (Nat × String × Nat × Nat × String)) :=
  [ ("mp3",
      [ (32, ("mp3_22050_32", 2205, 32, "mp3")),
        (64, ("mp3_44100_64", 4410, 64, "mp3")),
        (96, ("mp3_44100_96", 4410, 96, "mp3")),
        (128, ("mp3_44100_128", 4410, 128, "mp3")),
        (192, ("mp3_44100_192", 4410, 192, "mp3")) ]),
    ("pcm",
      [ (8000, ("pcm_8000", 800, 8000, "wav")),
        (16000, ("pcm_16000", 1600, 16000, "wav")),
        (22050, ("pcm_22050", 2205, 22050, "wav")),
        (24000, ("pcm_24000", 2400, 24000, "wav")),
        (44100, ("pcm_44100", 4410, 44100, "wav")) ]),
    ("ulaw", [ (8000, ("ulaw_8000", 800, 8000, "ulaw")) ]),
    ("alaw", [ (8000, ("alaw_8000", 800, 8000, "alaw")) ]),
    ("opus",
      [ (32, ("opus_48000_32", 4800, 32, "oga")),
        (64, ("opus_48000_64", 4800, 64, "oga")),
        (96, ("opus_48000_96", 4800, 96, "oga")),
        (128, ("opus_48000_128", 4800, 128, "oga")),
        (192, ("opus_48000_192", 4800, 192, "oga")) ]) ]

/-- How `get_output_format` fails.  For a known container type with an
unlisted rate, the guard raises
`ValueError(f"Invalid {audio_type} rate {rate}. Valid options: {keys}")`,
modelled structurally as `valueError audio_type rate keys`.  For an
unknown container type the guard is also taken, but evaluating
`valid_formats[audio_type]` inside the message raises `KeyError` before
the `ValueError` can be built: modelled as `keyError audio_type`.  A
successful lookup is `ok` with the table's descriptor. -/
inductive FormatResult where
  | ok (descriptor : String × Nat × Nat × String)
  | keyError (key : String)
  | valueError (audioType : String) (rate : Nat) (validRates : List Nat)
  deriving Repr, DecidableEq

/-- `get_output_format(audio_type, rate)` from `src/elevenify.py`
lines 203-236 (identical in `src/say2file.py` lines 128-161). -/
def getOutputFormat (audioType : String) (rate : Nat) : FormatResult :=
  match (validFormats.find? fun p => p.1 == audioType).map Prod.snd with
  | none => .keyError audioType
  | some rates =>
    match rates.find? fun p => p.1 == rate with
    | some p => .ok p.2
    | none => .valueError audioType rate (rates.map Prod.fst)

/-! ### Unique filename generation (src/elevenify.py lines 126-150,
src/say2file.py lines 72-99) -/

/-- Python `f"{n:05d}"` for a natural number: decimal digits left-padded
with zeros to width 5. -/
def pad5 (n : Nat) : String :=
  String.mk (List.replicate (5 - (toString n).length) '0') ++ toString n

/-- Python `f"{khz_rate:.2f}"` for the table constants, which are carried
as exact hundredths (`4410` is the float `44.1`): fixed two decimal
places, so `4410` formats as `"44.10"` and `2205` as `"22.05"` exactly as
Python prints the corresponding floats. -/
def fmt2 (khzH : Nat) : String :=
  toString (khzH / 100) ++ "." ++
    (if khzH % 100 < 10 then "0" ++ toString (khzH % 100) else toString (khzH % 100))

/-- Python `re.sub(r'[^a-zA-Z0-9\s]', '_', voice_name)`. -/
def sanitizeVoice (s : String) : String :=
  String.mk (s.data.map fun c =>
    if ('a' ≤ c ∧ c ≤ 'z') ∨ ('A' ≤ c ∧ c ≤ 'Z') ∨ ('0' ≤ c ∧ c ≤ '9') ∨ c.isWhitespace
    then c else '_')

/-- Python `if prefix: base = f"{prefix}-{base}"`: `None` and the empty
string are both falsy and leave the base unchanged. -/
def applyPfx : Option String → String → String
  | some p, base => if p = "" then base else p ++ "-" ++ base
  | none, base => base

/-- The base string built for attempt `index` by `get_unique_filename` in
`src/elevenify.py` (lines 131-143): range mode when both sample numbers
are given, single-sample mode when only the first is, direct-text mode
otherwise (where the index is always embedded). -/
def elevBase (voice : String) (khz : Nat) (bit : Nat) :
    Option Nat → Option Nat → Nat → String
  | some a, some b, index =>
    pad5 a ++ "-" ++ pad5 b ++ "-" ++ voice ++ "-" ++ fmt2 khz ++ "-" ++ toString bit ++
      (if 0 < index then "-" ++ pad5 index else "")
  | some a, none, index =>
    pad5 a ++ "-" ++ voice ++ "-" ++ fmt2 khz ++ "-" ++ toString bit ++
      (if 0 < index then "-" ++ pad5 index else "")
  | none, _, index =>
    voice ++ "-" ++ fmt2 khz ++ "-" ++ toString bit ++ "-" ++ pad5 index

/-- The candidate filename tested at attempt `index` by
`src/elevenify.py`'s `get_unique_filename`: sanitized voice, mode base,
optional prefix, extension, all slugified. -/
def candidateE (voice : String) (khz : Nat) (bit : Nat) (ext : String)
    (pfx : Option String) (ssn esn : Option Nat) (index : Nat) : String :=
  slugify (applyPfx pfx (elevBase (sanitizeVoice voice) khz bit ssn esn index) ++ "." ++ ext)

/-- The `for index in range(max_attempts)` loop of `src/elevenify.py`
lines 130-149 over the filesystem predicate `fs` (`os.path.exists`):
return the first free candidate, or `none` for the final `ValueError`. -/
def elevLoop (fs : String → Bool) (voice : String) (khz : Nat) (bit : Nat) (ext : String)
    (pfx : Option String) (ssn esn : Option Nat) : Nat → Nat → Option String
  | 0, _ => none
  | n + 1, index =>
    let f := candidateE voice khz bit ext pfx ssn esn index
    if fs f then elevLoop fs voice khz bit ext pfx ssn esn n (index + 1) else some f

/-- `get_unique_filename(...)` from `src/elevenify.py` lines 126-150:
`max_attempts = 1000`, indices 0,1,2,…; `none` models the `ValueError`
raised when every attempt collides. -/
def getUniqueFilenameE (fs : String → Bool) (voice : String) (khz : Nat) (bit : Nat)
    (ext : String) (pfx : Option String) (ssn esn : Option Nat) : Option String :=
  elevLoop fs voice khz bit ext pfx ssn esn 1000 0

/-- Outcome of running `src/say2file.py`'s `while True` filename loop for
a bounded number of iterations: either it returned a filename, or it was
still running when the allotted iterations ran out. -/
inductive SayResult where
  | found (name : String)
  | running
  deriving Repr, DecidableEq

/-- The base string built by `get_unique_filename` in `src/say2file.py`
(lines 78-81): sample mode carries no index; direct-text mode embeds it. -/
def sayBase (voice : String) (khz : Nat) (bit : Nat) : Option Nat → Nat → String
  | some a, _ => pad5 a ++ "-" ++ voice ++ "-" ++ fmt2 khz ++ "-" ++ toString bit
  | none, index => voice ++ "-" ++ fmt2 khz ++ "-" ++ toString bit ++ "-" ++ pad5 index

/-- The `while True` loop of `src/say2file.py` lines 76-99, with explicit
fuel: test the mode base; in sample mode, on collision also test the base
(prefix included) extended with `-{index:05d}`; then try the next index. -/
def sayLoop (fs : String → Bool) (voice : String) (khz : Nat) (bit : Nat) (ext : String)
    (pfx : Option String) (sn : Option Nat) : Nat → Nat → SayResult
  | 0, _ => .running
  | fuel + 1, index =>
    let base := applyPfx pfx (sayBase voice khz bit sn index)
    let f := slugify (base ++ "." ++ ext)
    if fs f then
      match sn with
      | none => sayLoop fs voice khz bit ext pfx sn fuel (index + 1)
      | some _ =>
        let f2 := slugify (base ++ "-" ++ pad5 index ++ "." ++ ext)
        if fs f2 then sayLoop fs voice khz bit ext pfx sn fuel (index + 1)
        else .found f2
    else .found f

/-- `get_unique_filename(...)` from `src/say2file.py` lines 72-99, run for
at most `fuel` iterations of its unbounded loop. -/
def getUniqueFilenameS (fs : String → Bool) (voice : String) (khz : Nat) (bit : Nat)
    (ext : String) (pfx : Option String) (sn : Option Nat) (fuel : Nat) : SayResult :=
  sayLoop fs (sanitizeVoice voice) khz bit ext pfx sn fuel 0

end Elevenify

namespace Elevenify

/-! ## Lemmas about the segmenter loops -/

/-- The emitted segments of the elevenify loop are exactly the classifier
entries whose line number is in range, projected to (sample, content). -/
theorem segLoopE_fst (s l : Nat) (lines : List String) : ∀ ln sn : Nat,
    (segLoopE s l lines ln sn).1 =
      (contentWithSamples sn (numberFrom ln lines)).filterMap
        (fun e => if s ≤ e.1 ∧ e.1 ≤ l then some e.2 else none) := by
  induction lines with
  | nil => intro ln sn; rfl
  | cons line rest ih =>
    intro ln sn
    simp only [segLoopE, numberFrom, contentWithSamples]
    by_cases hc : stripComment line = ""
    · simp only [hc]
      simpa using ih (ln + 1) sn
    · by_cases hr : ln < s ∨ l < ln
      · have hni : ¬ (s ≤ ln ∧ ln ≤ l) := by omega
        simp only [hc, hr, hni]
        simpa [hc, hni] using ih (ln + 1) (sn + 1)
      · have hi : s ≤ ln ∧ ln ≤ l := by omega
        simp only [hc, hr, hi]
        simpa [hc, hi, hr] using ih (ln + 1) (sn + 1)

/-- If the elevenify loop emitted nothing, then no line is simultaneously
in range and of non-empty content, so the fallback's line comprehension is
also empty. -/
theorem segLoopE_empty_no_inrange (s l : Nat) (lines : List String) : ∀ ln sn : Nat,
    (segLoopE s l lines ln sn).1 = [] →
    ((numberFrom ln lines).filterMap fun p =>
      if s ≤ p.1 ∧ p.1 ≤ l ∧ stripComment p.2 ≠ "" then some (stripComment p.2)
      else none) = [] := by
  induction lines with
  | nil => intro ln sn _; rfl
  | cons line rest ih =>
    intro ln sn h
    simp only [segLoopE] at h
    simp only [numberFrom, List.filterMap_cons]
    by_cases hc : stripComment line = ""
    · have hni : ¬ (s ≤ ln ∧ ln ≤ l ∧ stripComment line ≠ "") := by tauto
      rw [if_pos hc] at h
      rw [if_neg hni]
      exact ih (ln + 1) sn h
    · rw [if_neg hc] at h
      by_cases hr : ln < s ∨ l < ln
      · have hni : ¬ (s ≤ ln ∧ ln ≤ l ∧ stripComment line ≠ "") := by
          simp only [not_and, not_not]; omega
        rw [if_pos hr] at h
        rw [if_neg hni]
        exact ih (ln + 1) (sn + 1) h
      · rw [if_neg hr] at h
        simp at h

/-- The sentence-splitting fallback of elevenify's `split_text` never
contributes: the function always returns the per-line loop's segments. -/
theorem splitTextE_eq_fst (text : String) (s l : Nat) :
    splitTextE text s l = (segLoopE s l (textLines text) 1 0).1 := by
  unfold splitTextE
  cases h : (segLoopE s l (textLines text) 1 0).1.isEmpty
  · simp [h]
  · have h' : (segLoopE s l (textLines text) 1 0).1 = [] := List.isEmpty_iff.mp h
    have h2 := segLoopE_empty_no_inrange s l (textLines text) 1 0 h'
    simp only [h, if_true, h']
    unfold fallbackSourceE
    rw [h2]
    rfl

/-- say2file's loop computes the same `(segments, final sample counter)`
as elevenify's, once the upper bound is at least the last line number. -/
theorem segLoopS_eq_segLoopE (s L : Nat) (lines : List String) : ∀ ln sn : Nat,
    ln + lines.length ≤ L + 1 →
    segLoopS s lines ln sn = segLoopE s L lines ln sn := by
  induction lines with
  | nil => intro ln sn _; rfl
  | cons line rest ih =>
    intro ln sn hlen
    simp only [List.length_cons] at hlen
    simp only [segLoopS, segLoopE]
    by_cases hc : stripComment line = ""
    · simp only [if_pos hc]
      exact ih (ln + 1) sn (by omega)
    · by_cases hs : ln < s
      · have hr : ln < s ∨ L < ln := Or.inl hs
        simp only [if_neg hc, if_pos hs, if_pos hr]
        exact ih (ln + 1) (sn + 1) (by omega)
      · have hr : ¬ (ln < s ∨ L < ln) := by omega
        simp only [if_neg hc, if_neg hs, if_neg hr]
        rw [ih (ln + 1) (sn + 1) (by omega)]

/-- Elements of `numberFrom n xs` carry indices in `[n, n + xs.length)`. -/
theorem mem_numberFrom {α : Type} (xs : List α) : ∀ (n : Nat) (p : Nat × α),
    p ∈ numberFrom n xs → n ≤ p.1 ∧ p.1 < n + xs.length := by
  induction xs with
  | nil => intro n p hp; simp [numberFrom] at hp
  | cons x rest ih =>
    intro n p hp
    simp only [numberFrom, List.mem_cons] at hp
    rcases hp with rfl | hp
    · simp
    · have := ih (n + 1) p hp
      simp only [List.length_cons]
      omega

/-- Every classifier entry takes its line number from one of the numbered
input pairs. -/
theorem mem_contentWithSamples_line : ∀ (pairs : List (Nat × String)) (sn : Nat)
    (e : Nat × Nat × String), e ∈ contentWithSamples sn pairs →
    ∃ p ∈ pairs, e.1 = p.1 := by
  intro pairs
  induction pairs with
  | nil => intro sn e he; simp [contentWithSamples] at he
  | cons p rest ih =>
    intro sn e he
    obtain ⟨ln, line⟩ := p
    simp only [contentWithSamples] at he
    by_cases hc : stripComment line = ""
    · rw [if_pos hc] at he
      obtain ⟨q, hq, h⟩ := ih sn e he
      exact ⟨q, List.mem_cons_of_mem _ hq, h⟩
    · rw [if_neg hc] at he
      rcases List.mem_cons.mp he with rfl | he
      · exact ⟨(ln, line), List.mem_cons_self _ _, rfl⟩
      · obtain ⟨q, hq, h⟩ := ih (sn + 1) e he
        exact ⟨q, List.mem_cons_of_mem _ hq, h⟩

/-- Sample numbers produced by the classifier are consecutive from
`sn + 1`: they are dense and strictly increasing in line order. -/
theorem contentWithSamples_samples : ∀ (pairs : List (Nat × String)) (sn : Nat),
    (contentWithSamples sn pairs).map (fun e => e.2.1) =
      List.range' (sn + 1) (contentWithSamples sn pairs).length := by
  intro pairs
  induction pairs with
  | nil => intro sn; rfl
  | cons p rest ih =>
    intro sn
    obtain ⟨ln, line⟩ := p
    simp only [contentWithSamples]
    by_cases hc : stripComment line = ""
    · rw [if_pos hc]; exact ih sn
    · rw [if_neg hc]
      simp only [List.map_cons, List.length_cons, List.range'_succ]
      rw [ih (sn + 1)]

/-- The fallback sources of the two variants agree once elevenify's upper
bound is the total line count (no line is excluded by it). -/
theorem fallbackSourceS_eq (s : Nat) (lines : List String) :
    fallbackSourceS s lines = fallbackSourceE s lines.length lines := by
  unfold fallbackSourceS fallbackSourceE
  congr 1
  apply List.filterMap_congr
  intro p hp
  have hb := mem_numberFrom lines 1 p hp
  have hle : p.1 ≤ lines.length := by omega
  by_cases h1 : s ≤ p.1 <;> by_cases h2 : stripComment p.2 = "" <;>
    simp [h1, h2, hle]

/-- say2file's `split_text(text, start_line)` coincides with elevenify's
`split_text(text, start_line, L)` where `L` is the number of physical
lines of the trimmed text. -/
theorem splitS_eq_splitE (text : String) (s : Nat) :
    splitTextS text s = splitTextE text s ((textLines text).length) := by
  simp only [splitTextS, splitTextE]
  rw [segLoopS_eq_segLoopE s ((textLines text).length) (textLines text) 1 0 (by omega),
    fallbackSourceS_eq]

end Elevenify

namespace Elevenify

/-! ## Claims C1, C2, C9, C10: the segmenter -/

/-- C1: for every input text and every line range, the segmenter assigns
sample numbers over the whole text in physical-line order — the emitted
segments are exactly the globally numbered content entries whose line
number is in range (for both script variants), the sample numbers of the
classifier are dense and strictly increasing (`1, 2, 3, …`), and in the
concrete 10-line example with 5 content lines, requesting lines 6-10
still emits the fourth content line (on line 8) with sample number 4. -/
theorem c1_global_sample_numbers :
    (∀ (text : String) (s l : Nat),
      splitTextE text s l =
        (contentEntries (textLines text)).filterMap
          (fun e => if s ≤ e.1 ∧ e.1 ≤ l then some e.2 else none)) ∧
    (∀ lines : List String,
      (contentEntries lines).map (fun e => e.2.1) =
        List.range' 1 (contentEntries lines).length) ∧
    (∀ (text : String) (s : Nat),
      splitTextS text s =
        (contentEntries (textLines text)).filterMap
          (fun e => if s ≤ e.1 then some e.2 else none)) ∧
    (4, "delta") ∈ splitTextE "# one\nalpha\n# two\nbeta\n#\ngamma\n# c\ndelta\n# e\nepsilon" 6 10 := by
  have key : ∀ (text : String) (s l : Nat),
      splitTextE text s l =
        (contentEntries (textLines text)).filterMap
          (fun e => if s ≤ e.1 ∧ e.1 ≤ l then some e.2 else none) := by
    intro text s l
    rw [splitTextE_eq_fst, segLoopE_fst]
    rfl
  refine ⟨key, ?_, ?_, by decide⟩
  · intro lines
    exact contentWithSamples_samples (numberFrom 1 lines) 0
  · intro text s
    rw [splitS_eq_splitE, key]
    apply List.filterMap_congr
    intro e he
    obtain ⟨p, hp, hline⟩ :=
      mem_contentWithSamples_line (numberFrom 1 (textLines text)) 0 e he
    have hb := mem_numberFrom (textLines text) 1 p hp
    have hle : e.1 ≤ (textLines text).length := by omega
    by_cases h1 : s ≤ e.1 <;> simp [h1, hle]

/-- C2 counterexample: with text `"Hello.\n# note"` and range 2-2 there
are zero in-range content lines, yet the fallback's sentence source is
empty rather than the full-text content `"Hello."` the claim demands. -/
theorem c2_fallback_full_text_counterexample :
    (segLoopE 2 2 (textLines "Hello.\n# note") 1 0).1 = [] ∧
    fallbackSourceE 2 2 (textLines "Hello.\n# note") ≠
      fullContentSource (textLines "Hello.\n# note") := by decide

/-- C2 (amended): the fallback builds its sentence source from the
in-range content lines — the very set whose emptiness triggered the
fallback — so whenever it fires its source is the empty string and the
whole `split_text` result is empty, never the joined full-text content. -/
theorem c2_fallback_source_in_range (text : String) (s l : Nat)
    (h : (segLoopE s l (textLines text) 1 0).1 = []) :
    fallbackSourceE s l (textLines text) = "" ∧ splitTextE text s l = [] := by
  have h2 := segLoopE_empty_no_inrange s l (textLines text) 1 0 h
  constructor
  · unfold fallbackSourceE
    rw [h2]
    rfl
  · rw [splitTextE_eq_fst, h]

/-- Witness for C2: a concrete empty-range input satisfying the
hypothesis, with conclusion delivered by the theorem. -/
theorem c2_fallback_source_in_range_witness :
    (segLoopE 2 2 (textLines "Hello.") 1 0).1 = [] ∧
    (fallbackSourceE 2 2 (textLines "Hello.") = "" ∧ splitTextE "Hello." 2 2 = []) :=
  ⟨by decide, c2_fallback_source_in_range "Hello." 2 2 (by decide)⟩

/-- C9 counterexample: the spec's fallback scenario — one content line
`"One. Two! Three?"` outside the requested range 1-1 — is claimed to
produce three sentence segments numbered 2, 3, 4; the code produces no
segments at all. -/
theorem c9_fallback_sentences_counterexample :
    splitTextE "# intro\nOne. Two! Three?" 1 1 ≠
      [(2, "One."), (3, "Two!"), (4, "Three?")] := by decide

/-- C9 (amended): when the fallback fires it emits nothing — `split_text`
always returns exactly the primary per-line segments, because the
fallback's sentence source reapplies the same range filter that just
produced zero segments. -/
theorem c9_fallback_emits_nothing (text : String) (s l : Nat) :
    splitTextE text s l = (segLoopE s l (textLines text) 1 0).1 :=
  splitTextE_eq_fst text s l

/-- C10: the two variants' segmenters are equivalent — say2file's
`split_text(text, start_line)` returns exactly elevenify's
`split_text(text, start_line, L)` with `L` the physical line count of the
trimmed text. -/
theorem c10_variants_equivalent (text : String) (s : Nat) :
    splitTextS text s = splitTextE text s ((textLines text).length) :=
  splitS_eq_splitE text s

end Elevenify

namespace Elevenify

/-! ## Lemmas about the credit estimator -/

/-- The model cost is nonnegative (in half-credit units it is 1 or 2). -/
theorem getModelCreditCost_nonneg (model : String) : 0 ≤ getModelCreditCost model := by
  unfold getModelCreditCost
  split <;> norm_num

/-- The in-range credit total only grows along the estimator loop. -/
theorem estLoop_full_credits_mono (s l : Nat) (cost r : ℤ) (hc : 0 ≤ cost)
    (lines : List String) : ∀ (ln : Nat) (st : CreditEstimate),
    st.full_file_credits ≤ (estLoop s l cost r lines ln st).full_file_credits := by
  induction lines with
  | nil => intro ln st; simp [estLoop]
  | cons line rest ih =>
    intro ln st
    have h0 : (0:ℤ) ≤ ((stripComment line).length : ℤ) * cost :=
      mul_nonneg (Int.natCast_nonneg _) hc
    simp only [estLoop]
    split
    · exact ih (ln + 1) st
    · split
      · exact ih (ln + 1) st
      · refine le_trans ?_ (ih (ln + 1) _)
        split <;> simp <;> omega

/-- If the affordable credit total is within budget, it stays within
budget: the guard admits a line only when the new total still fits. -/
theorem estLoop_affordable_le (s l : Nat) (cost r : ℤ) (lines : List String) :
    ∀ (ln : Nat) (st : CreditEstimate), st.credits_required ≤ r →
    (estLoop s l cost r lines ln st).credits_required ≤ r := by
  induction lines with
  | nil => intro ln st h; simpa [estLoop] using h
  | cons line rest ih =>
    intro ln st h
    simp only [estLoop]
    split
    · exact ih (ln + 1) st h
    · split
      · exact ih (ln + 1) st h
      · apply ih (ln + 1)
        split
        · simpa using by assumption
        · simpa using h

/-- The affordable credit total never exceeds the in-range total. -/
theorem estLoop_affordable_le_full (s l : Nat) (cost r : ℤ) (hc : 0 ≤ cost)
    (lines : List String) : ∀ (ln : Nat) (st : CreditEstimate),
    st.credits_required ≤ st.full_file_credits →
    (estLoop s l cost r lines ln st).credits_required ≤
      (estLoop s l cost r lines ln st).full_file_credits := by
  induction lines with
  | nil => intro ln st h; simpa [estLoop] using h
  | cons line rest ih =>
    intro ln st h
    have h0 : (0:ℤ) ≤ ((stripComment line).length : ℤ) * cost :=
      mul_nonneg (Int.natCast_nonneg _) hc
    simp only [estLoop]
    split
    · exact ih (ln + 1) st h
    · split
      · exact ih (ln + 1) st h
      · apply ih (ln + 1)
        split <;> simp <;> omega

/-- When even the final in-range total fits in the budget, every line is
admitted: the affordable counters track the totals exactly. -/
theorem estLoop_all_affordable (s l : Nat) (cost r : ℤ) (hc : 0 ≤ cost)
    (lines : List String) : ∀ (ln : Nat) (st : CreditEstimate),
    st.credits_required = st.full_file_credits →
    st.lines = st.full_file_lines →
    st.characters = st.full_file_characters →
    (estLoop s l cost r lines ln st).full_file_credits ≤ r →
    (estLoop s l cost r lines ln st).lines =
        (estLoop s l cost r lines ln st).full_file_lines ∧
      (estLoop s l cost r lines ln st).characters =
        (estLoop s l cost r lines ln st).full_file_characters ∧
      (estLoop s l cost r lines ln st).credits_required =
        (estLoop s l cost r lines ln st).full_file_credits := by
  induction lines with
  | nil => intro ln st h1 h2 h3 _; simpa [estLoop] using ⟨h2, h3, h1⟩
  | cons line rest ih =>
    intro ln st h1 h2 h3 hfit
    simp only [estLoop] at hfit ⊢
    by_cases hr : ln < s ∨ l < ln
    · rw [if_pos hr] at hfit ⊢
      exact ih (ln + 1) st h1 h2 h3 hfit
    · rw [if_neg hr] at hfit ⊢
      by_cases hcc : stripComment line = ""
      · rw [if_pos hcc] at hfit ⊢
        exact ih (ln + 1) st h1 h2 h3 hfit
      · rw [if_neg hcc] at hfit ⊢
        set lc : ℤ := ((stripComment line).length : ℤ) * cost with hlc
        have hffc : st.full_file_credits + lc ≤
            (estLoop s l cost r rest (ln + 1)
              (if st.credits_required + lc ≤ r then
                { st with
                  lines := st.lines + 1
                  characters := st.characters + (stripComment line).length
                  credits_required := st.credits_required + lc
                  full_file_lines := st.full_file_lines + 1
                  full_file_characters := st.full_file_characters + (stripComment line).length
                  full_file_credits := st.full_file_credits + lc }
              else
                { st with
                  full_file_lines := st.full_file_lines + 1
                  full_file_characters := st.full_file_characters + (stripComment line).length
                  full_file_credits := st.full_file_credits + lc })).full_file_credits := by
          split
          · simpa using estLoop_full_credits_mono s l cost r hc rest (ln + 1) _
          · simpa using estLoop_full_credits_mono s l cost r hc rest (ln + 1) _
        have hguard : st.credits_required + lc ≤ r := by
          rw [h1]
          refine le_trans hffc (le_trans ?_ hfit)
          apply le_of_eq
          congr 1
        rw [if_pos hguard] at hfit ⊢
        apply ih (ln + 1) _ (by simp [h1]) (by simp [h2]) (by simp [h3]) hfit
  
end Elevenify

namespace Elevenify

/-- Unfolding `inRangeContents` over a numbered cons cell: out-of-range
head. -/
theorem inRangeContents_cons_out (s l ln : Nat) (line : String) (rest : List String)
    (hni : ¬ (s ≤ ln ∧ ln ≤ l)) :
    inRangeContents s l (numberFrom ln (line :: rest)) =
      inRangeContents s l (numberFrom (ln + 1) rest) := by
  simp [inRangeContents, numberFrom, hni]

/-- Unfolding `inRangeContents` over a numbered cons cell: in-range head
with empty content. -/
theorem inRangeContents_cons_empty (s l ln : Nat) (line : String) (rest : List String)
    (hi : s ≤ ln ∧ ln ≤ l) (hcc : stripComment line = "") :
    inRangeContents s l (numberFrom ln (line :: rest)) =
      inRangeContents s l (numberFrom (ln + 1) rest) := by
  simp [inRangeContents, numberFrom, hi, hcc]

/-- Unfolding `inRangeContents` over a numbered cons cell: in-range head
with non-empty content. -/
theorem inRangeContents_cons_content (s l ln : Nat) (line : String) (rest : List String)
    (hi : s ≤ ln ∧ ln ≤ l) (hcc : stripComment line ≠ "") :
    inRangeContents s l (numberFrom ln (line :: rest)) =
      stripComment line :: inRangeContents s l (numberFrom (ln + 1) rest) := by
  simp [inRangeContents, numberFrom, hi, hcc]

/-- Full characterization of the estimator loop: the in-range totals are
plain sums over the in-range content lines (affordability never affects
them), and the affordable counters are the sums over the greedy
fits-in-budget selection started at the current affordable total. -/
theorem estLoop_spec (s l : Nat) (cost r : ℤ) (lines : List String) :
    ∀ (ln : Nat) (st : CreditEstimate),
    estLoop s l cost r lines ln st =
      { st with
        full_file_lines := st.full_file_lines +
          ((inRangeContents s l (numberFrom ln lines)).map String.length).length
        full_file_characters := st.full_file_characters +
          ((inRangeContents s l (numberFrom ln lines)).map String.length).sum
        full_file_credits := st.full_file_credits +
          (((inRangeContents s l (numberFrom ln lines)).map String.length).sum : ℤ) * cost
        lines := st.lines +
          (greedySelect cost r st.credits_required
            ((inRangeContents s l (numberFrom ln lines)).map String.length)).length
        characters := st.characters +
          (greedySelect cost r st.credits_required
            ((inRangeContents s l (numberFrom ln lines)).map String.length)).sum
        credits_required := st.credits_required +
          ((greedySelect cost r st.credits_required
            ((inRangeContents s l (numberFrom ln lines)).map String.length)).sum : ℤ) * cost } := by
  induction lines with
  | nil =>
    intro ln st
    simp [estLoop, inRangeContents, numberFrom, greedySelect]
  | cons line rest ih =>
    intro ln st
    by_cases hr : ln < s ∨ l < ln
    · have hni : ¬ (s ≤ ln ∧ ln ≤ l) := by omega
      rw [inRangeContents_cons_out s l ln line rest hni]
      simp only [estLoop]
      rw [if_pos hr]
      exact ih (ln + 1) st
    · have hi : s ≤ ln ∧ ln ≤ l := by omega
      by_cases hcc : stripComment line = ""
      · rw [inRangeContents_cons_empty s l ln line rest hi hcc]
        simp only [estLoop]
        rw [if_neg hr, if_pos hcc]
        exact ih (ln + 1) st
      · rw [inRangeContents_cons_content s l ln line rest hi hcc]
        simp only [estLoop, List.map_cons, greedySelect]
        rw [if_neg hr, if_neg hcc]
        by_cases hg : st.credits_required + ((stripComment line).length : ℤ) * cost ≤ r
        · rw [if_pos hg, if_pos hg, ih (ln + 1)]
          simp only [CreditEstimate.mk.injEq, List.length_cons, List.sum_cons]
          repeat' apply And.intro
          all_goals first
          | rfl
          | omega
          | (push_cast; ring)
          | trivial
        · rw [if_neg hg, if_neg hg, ih (ln + 1)]
          simp only [CreditEstimate.mk.injEq, List.length_cons, List.sum_cons]
          repeat' apply And.intro
          all_goals first
          | rfl
          | omega
          | (push_cast; ring)
          | trivial

end Elevenify

namespace Elevenify

/-! ## Claims C3, C4: the credit estimator -/

/-- C3 counterexample: with five credits remaining (10 half-credits) and
in-range content lines of 12 and 2 characters, the first line overruns
the budget yet the estimator still counts the second, cheaper, line as
affordable (`lines = 1`), whereas the claimed stop-at-first-overrun
rule would count zero affordable lines. -/
theorem c3_first_overrun_counterexample :
    (estimateConvertibleLines "aaaaaaaaaaaa\nbb" 1 2 "eleven_multilingual_v2" 10).lines = 1 ∧
    (affordableUntilFirstOverrun (getModelCreditCost "eleven_multilingual_v2") 10
      ((inRangeContents 1 2 (numberFrom 1 (textLines "aaaaaaaaaaaa\nbb"))).map
        String.length)).1 = 0 := by decide

/-- C3 (amended): a line whose cost would overrun the remaining budget is
excluded from the affordable counters but still counted in the range
totals; subsequent lines are still considered and included whenever they
fit, so the affordable set is the line-order greedy fits-in-budget
selection — not necessarily a prefix — while the range totals are the
plain sums over all in-range content lines. -/
theorem c3_greedy_affordable (text : String) (s l : Nat) (model : String) (r : ℤ) :
    (estimateConvertibleLines text s l model r).full_file_lines =
        ((inRangeContents s l (numberFrom 1 (textLines text))).map String.length).length ∧
    (estimateConvertibleLines text s l model r).full_file_characters =
        ((inRangeContents s l (numberFrom 1 (textLines text))).map String.length).sum ∧
    (estimateConvertibleLines text s l model r).full_file_credits =
        (((inRangeContents s l (numberFrom 1 (textLines text))).map String.length).sum : ℤ) *
          getModelCreditCost model ∧
    (estimateConvertibleLines text s l model r).lines =
        (greedySelect (getModelCreditCost model) r 0
          ((inRangeContents s l (numberFrom 1 (textLines text))).map String.length)).length ∧
    (estimateConvertibleLines text s l model r).characters =
        (greedySelect (getModelCreditCost model) r 0
          ((inRangeContents s l (numberFrom 1 (textLines text))).map String.length)).sum ∧
    (estimateConvertibleLines text s l model r).credits_required =
        ((greedySelect (getModelCreditCost model) r 0
          ((inRangeContents s l (numberFrom 1 (textLines text))).map String.length)).sum : ℤ) *
          getModelCreditCost model := by
  unfold estimateConvertibleLines
  rw [estLoop_spec]
  simp

/-- C4 counterexample: when the account is over its limit the remaining
credits are negative, and the estimator's affordable total (zero) exceeds
them — `affordable_credits ≤ credits_remaining` does not hold always. -/
theorem c4_negative_remaining_counterexample :
    ¬ ((estimateConvertibleLines "a" 1 1 "eleven_multilingual_v2" (-1)).credits_required ≤
        (estimateConvertibleLines "a" 1 1 "eleven_multilingual_v2" (-1)).credits_remaining) := by
  decide

/-- C4 (amended): whenever the remaining credits are nonnegative the
affordable credit total never exceeds them; the affordable total never
exceeds the in-range total; and when the whole in-range total fits in the
remaining credits every in-range content line is affordable (all three
affordable counters equal the range totals). -/
theorem c4_credit_bounds (text : String) (s l : Nat) (model : String) (r : ℤ) :
    (0 ≤ r → (estimateConvertibleLines text s l model r).credits_required ≤ r) ∧
    (estimateConvertibleLines text s l model r).credits_required ≤
      (estimateConvertibleLines text s l model r).full_file_credits ∧
    ((estimateConvertibleLines text s l model r).full_file_credits ≤ r →
      (estimateConvertibleLines text s l model r).lines =
          (estimateConvertibleLines text s l model r).full_file_lines ∧
        (estimateConvertibleLines text s l model r).characters =
          (estimateConvertibleLines text s l model r).full_file_characters ∧
        (estimateConvertibleLines text s l model r).credits_required =
          (estimateConvertibleLines text s l model r).full_file_credits) := by
  unfold estimateConvertibleLines
  refine ⟨?_, ?_, ?_⟩
  · intro h0
    exact estLoop_affordable_le _ _ _ _ _ _ _ (by simpa using h0)
  · exact estLoop_affordable_le_full _ _ _ _ (getModelCreditCost_nonneg model) _ _ _ (by simp)
  · intro hfit
    exact estLoop_all_affordable _ _ _ _ (getModelCreditCost_nonneg model) _ _ _ rfl rfl rfl hfit

/-- Witness for C4: a concrete in-budget input discharging both
hypotheses of the amended claim. -/
theorem c4_credit_bounds_witness :
    (0 : ℤ) ≤ 10 ∧
    (estimateConvertibleLines "ab\ncd" 1 2 "eleven_multilingual_v2" 10).credits_required ≤ 10 ∧
    (estimateConvertibleLines "ab\ncd" 1 2 "eleven_multilingual_v2" 10).full_file_credits ≤ 10 ∧
    (estimateConvertibleLines "ab\ncd" 1 2 "eleven_multilingual_v2" 10).lines =
      (estimateConvertibleLines "ab\ncd" 1 2 "eleven_multilingual_v2" 10).full_file_lines :=
  ⟨by decide, (c4_credit_bounds "ab\ncd" 1 2 "eleven_multilingual_v2" 10).1 (by decide),
   by decide, ((c4_credit_bounds "ab\ncd" 1 2 "eleven_multilingual_v2" 10).2.2 (by decide)).1⟩

end Elevenify

namespace Elevenify

/-! ## Lemmas about the filename builders -/

/-- elevenify's attempt loop only ever returns a candidate the filesystem
check reported as absent. -/
theorem elevLoop_free (fs : String → Bool) (voice : String) (khz bit : Nat) (ext : String)
    (pfx : Option String) (ssn esn : Option Nat) : ∀ (n index : Nat) (f : String),
    elevLoop fs voice khz bit ext pfx ssn esn n index = some f → fs f = false := by
  intro n
  induction n with
  | zero => intro index f h; simp [elevLoop] at h
  | succ n ih =>
    intro index f h
    simp only [elevLoop] at h
    by_cases hx : fs (candidateE voice khz bit ext pfx ssn esn index) = true
    · rw [if_pos hx] at h
      exact ih (index + 1) f h
    · rw [if_neg hx] at h
      cases h
      simpa using hx

/-- elevenify's attempt loop exhausts (models the `ValueError`) exactly
when all `n` candidates from the current index exist. -/
theorem elevLoop_none_iff (fs : String → Bool) (voice : String) (khz bit : Nat) (ext : String)
    (pfx : Option String) (ssn esn : Option Nat) : ∀ (n index : Nat),
    elevLoop fs voice khz bit ext pfx ssn esn n index = none ↔
      ∀ j, j < n → fs (candidateE voice khz bit ext pfx ssn esn (index + j)) = true := by
  intro n
  induction n with
  | zero => intro index; simp [elevLoop]
  | succ n ih =>
    intro index
    simp only [elevLoop]
    by_cases h : fs (candidateE voice khz bit ext pfx ssn esn index) = true
    · rw [if_pos h, ih (index + 1)]
      constructor
      · intro hall j hj
        match j, hj with
        | 0, _ => simpa using h
        | j + 1, hj =>
          have hh := hall j (by omega)
          have e : index + 1 + j = index + (j + 1) := by omega
          rw [e] at hh
          exact hh
      · intro hall j hj
        have hh := hall (j + 1) (by omega)
        have e : index + 1 + j = index + (j + 1) := by omega
        rw [e]
        exact hh
    · rw [if_neg h]
      constructor
      · intro hsome
        exact absurd hsome (by simp)
      · intro hall
        exact absurd (by simpa using hall 0 (by omega)) h

/-- say2file's loop only ever returns a candidate the filesystem check
reported as absent. -/
theorem sayLoop_found_free (fs : String → Bool) (voice : String) (khz bit : Nat) (ext : String)
    (pfx : Option String) (sn : Option Nat) : ∀ (fuel index : Nat) (f : String),
    sayLoop fs voice khz bit ext pfx sn fuel index = .found f → fs f = false := by
  intro fuel
  induction fuel with
  | zero => intro index f h; simp [sayLoop] at h
  | succ fuel ih =>
    intro index f h
    simp only [sayLoop] at h
    by_cases h1 : fs (slugify (applyPfx pfx (sayBase voice khz bit sn index) ++ "." ++ ext)) = true
    · rw [if_pos h1] at h
      cases sn with
      | none => exact ih (index + 1) f h
      | some a =>
        by_cases h2 : fs (slugify (applyPfx pfx (sayBase voice khz bit (some a) index) ++ "-" ++
            pad5 index ++ "." ++ ext)) = true
        · rw [if_pos h2] at h
          exact ih (index + 1) f h
        · rw [if_neg h2] at h
          cases h
          simpa using h2
    · rw [if_neg h1] at h
      cases h
      simpa using h1

/-- On a filesystem where every name exists, say2file's loop never
returns: it is still running after any number of iterations. -/
theorem sayLoop_allTaken (voice : String) (khz bit : Nat) (ext : String)
    (pfx : Option String) (sn : Option Nat) : ∀ (fuel index : Nat),
    sayLoop (fun _ => true) voice khz bit ext pfx sn fuel index = .running := by
  intro fuel
  induction fuel with
  | zero => intro index; rfl
  | succ fuel ih =>
    intro index
    simp only [sayLoop]
    cases sn with
    | none => simpa using ih (index + 1)
    | some a => simpa using ih (index + 1)

/-- One step of elevenify's attempt loop. -/
theorem elevLoop_succ (fs : String → Bool) (voice : String) (khz bit : Nat) (ext : String)
    (pfx : Option String) (ssn esn : Option Nat) (n index : Nat) :
    elevLoop fs voice khz bit ext pfx ssn esn (n + 1) index =
      if fs (candidateE voice khz bit ext pfx ssn esn index) = true
      then elevLoop fs voice khz bit ext pfx ssn esn n (index + 1)
      else some (candidateE voice khz bit ext pfx ssn esn index) := rfl

/-- When the first candidate exists and the second does not, elevenify's
builder returns the second candidate. -/
theorem elevSecondCandidate (fs : String → Bool) (voice : String) (khz bit : Nat)
    (ext : String) (pfx : Option String) (ssn esn : Option Nat)
    (h0 : fs (candidateE voice khz bit ext pfx ssn esn 0) = true)
    (h1 : fs (candidateE voice khz bit ext pfx ssn esn 1) = false) :
    getUniqueFilenameE fs voice khz bit ext pfx ssn esn =
      some (candidateE voice khz bit ext pfx ssn esn 1) := by
  unfold getUniqueFilenameE
  rw [show (1000 : Nat) = 999 + 1 from rfl, elevLoop_succ, if_pos h0,
    show (999 : Nat) = 998 + 1 from rfl, elevLoop_succ, if_neg (by simp [h1])]

end Elevenify

namespace Elevenify

/-- One step of say2file's loop in sample mode when the plain candidate
exists but its `-{index:05d}` variant does not. -/
theorem saySecondCandidate (fs : String → Bool) (v : String) (khz bit : Nat) (ext : String)
    (pfx : Option String) (a : Nat) (fuel : Nat)
    (h0 : fs (slugify (applyPfx pfx (sayBase v khz bit (some a) 0) ++ "." ++ ext)) = true)
    (h1 : fs (slugify (applyPfx pfx (sayBase v khz bit (some a) 0) ++ "-" ++ pad5 0 ++ "." ++
      ext)) = false) :
    sayLoop fs v khz bit ext pfx (some a) (fuel + 1) 0 =
      .found (slugify (applyPfx pfx (sayBase v khz bit (some a) 0) ++ "-" ++ pad5 0 ++ "." ++
        ext)) := by
  simp only [sayLoop]
  rw [if_pos h0, if_neg (by simp [h1])]

/-! ## Claims C5, C6, C7 -/

/-- C5: both filename builders never return a name that exists in the
modelled filesystem, and when exactly the first candidate exists each
returns its next disambiguated candidate (elevenify: the attempt-1
candidate, whose base carries the `-00001` index; say2file: the first
candidate's base extended with `-00000`). -/
theorem c5_builder_no_collision :
    (∀ (fs : String → Bool) (voice : String) (khz bit : Nat) (ext : String)
      (pfx : Option String) (ssn esn : Option Nat) (f : String),
      getUniqueFilenameE fs voice khz bit ext pfx ssn esn = some f → fs f = false) ∧
    (∀ (fs : String → Bool) (voice : String) (khz bit : Nat) (ext : String)
      (pfx : Option String) (sn : Option Nat) (fuel : Nat) (f : String),
      getUniqueFilenameS fs voice khz bit ext pfx sn fuel = .found f → fs f = false) ∧
    (∀ (fs : String → Bool) (voice : String) (khz bit : Nat) (ext : String)
      (pfx : Option String) (ssn esn : Option Nat),
      fs (candidateE voice khz bit ext pfx ssn esn 0) = true →
      fs (candidateE voice khz bit ext pfx ssn esn 1) = false →
      getUniqueFilenameE fs voice khz bit ext pfx ssn esn =
        some (candidateE voice khz bit ext pfx ssn esn 1)) ∧
    (∀ (fs : String → Bool) (voice : String) (khz bit : Nat) (ext : String)
      (pfx : Option String) (a : Nat) (fuel : Nat),
      fs (slugify (applyPfx pfx (sayBase (sanitizeVoice voice) khz bit (some a) 0) ++ "." ++
        ext)) = true →
      fs (slugify (applyPfx pfx (sayBase (sanitizeVoice voice) khz bit (some a) 0) ++ "-" ++
        pad5 0 ++ "." ++ ext)) = false →
      getUniqueFilenameS fs voice khz bit ext pfx (some a) (fuel + 1) =
        .found (slugify (applyPfx pfx (sayBase (sanitizeVoice voice) khz bit (some a) 0) ++
          "-" ++ pad5 0 ++ "." ++ ext))) := by
  refine ⟨?_, ?_, ?_, ?_⟩
  · intro fs voice khz bit ext pfx ssn esn f h
    exact elevLoop_free fs voice khz bit ext pfx ssn esn 1000 0 f h
  · intro fs voice khz bit ext pfx sn fuel f h
    exact sayLoop_found_free fs (sanitizeVoice voice) khz bit ext pfx sn fuel 0 f h
  · intro fs voice khz bit ext pfx ssn esn h0 h1
    exact elevSecondCandidate fs voice khz bit ext pfx ssn esn h0 h1
  · intro fs voice khz bit ext pfx a fuel h0 h1
    exact saySecondCandidate fs (sanitizeVoice voice) khz bit ext pfx a fuel h0 h1

/-- Witness for C5: a filesystem holding exactly elevenify's first
candidate for voice Adam at 44.1 kHz / 128 kbps; the builder returns the
attempt-1 candidate `00001-adam-44.10-128-00001.mp3`. -/
theorem c5_builder_no_collision_witness :
    (fun t => t == "00001-adam-44.10-128.mp3")
        (candidateE "Adam" 4410 128 "mp3" none (some 1) none 0) = true ∧
    (fun t => t == "00001-adam-44.10-128.mp3")
        (candidateE "Adam" 4410 128 "mp3" none (some 1) none 1) = false ∧
    getUniqueFilenameE (fun t => t == "00001-adam-44.10-128.mp3")
        "Adam" 4410 128 "mp3" none (some 1) none =
      some (candidateE "Adam" 4410 128 "mp3" none (some 1) none 1) :=
  ⟨by decide, by decide,
    c5_builder_no_collision.2.2.1 (fun t => t == "00001-adam-44.10-128.mp3")
      "Adam" 4410 128 "mp3" none (some 1) none (by decide) (by decide)⟩

/-- C6 counterexample: on a filesystem where every name exists,
say2file's builder is still running after 5000 iterations of its
`while True` loop — it neither returns nor aborts within any bound of
1000 attempts (indeed it runs forever: `sayLoop_allTaken`). -/
theorem c6_unbounded_counterexample :
    getUniqueFilenameS (fun _ => true) "Adam" 4410 128 "mp3" none (some 1) 5000 =
      .running :=
  sayLoop_allTaken (sanitizeVoice "Adam") 4410 128 "mp3" none (some 1) 5000 0

/-- C6 (amended): elevenify's builder is bounded — it aborts with an
error exactly when all 1000 candidate attempts collide — but say2file's
builder has no attempt bound: on a filesystem where every candidate
exists it is still running after any number of iterations. -/
theorem c6_bounded_attempts :
    (∀ (fs : String → Bool) (voice : String) (khz bit : Nat) (ext : String)
      (pfx : Option String) (ssn esn : Option Nat),
      getUniqueFilenameE fs voice khz bit ext pfx ssn esn = none ↔
        ∀ i, i < 1000 → fs (candidateE voice khz bit ext pfx ssn esn i) = true) ∧
    (∀ (voice : String) (khz bit : Nat) (ext : String) (pfx : Option String)
      (sn : Option Nat) (fuel : Nat),
      getUniqueFilenameS (fun _ => true) voice khz bit ext pfx sn fuel = .running) := by
  constructor
  · intro fs voice khz bit ext pfx ssn esn
    unfold getUniqueFilenameE
    simpa using elevLoop_none_iff fs voice khz bit ext pfx ssn esn 1000 0
  · intro voice khz bit ext pfx sn fuel
    exact sayLoop_allTaken (sanitizeVoice voice) khz bit ext pfx sn fuel 0

/-- Witness for C6: on the everything-exists filesystem elevenify's
builder aborts (returns the error value) after its 1000 attempts. -/
theorem c6_bounded_attempts_witness :
    getUniqueFilenameE (fun _ => true) "Adam" 4410 128 "mp3" none (some 1) none = none :=
  (c6_bounded_attempts.1 (fun _ => true) "Adam" 4410 128 "mp3" none (some 1) none).mpr
    (fun _ _ => rfl)

/-- C7: every listed `(container, rate)` pair resolves to exactly its
table entry (shown for the whole table, and concretely for
`('pcm', 8000)`); a known container with an unlisted rate fails with the
`ValueError` enumerating that container's valid rates; but an unknown
container type does not produce the enumerated invalid-parameter error
the claim requires — building that error message raises `KeyError`. -/
theorem c7_format_resolver :
    (validFormats.all fun tp => tp.2.all fun p =>
      getOutputFormat tp.1 p.1 == FormatResult.ok p.2) = true ∧
    getOutputFormat "pcm" 8000 = .ok ("pcm_8000", 800, 8000, "wav") ∧
    getOutputFormat "mp3" 999 = .valueError "mp3" 999 [32, 64, 96, 128, 192] ∧
    getOutputFormat "flac" 128 = .keyError "flac" := by decide

end Elevenify

namespace Elevenify

/-! ## Lemmas about slugify -/

/-- Replacement characters are always in the slug class. -/
theorem isSlugChar_slugChar (c : Char) : isSlugChar (slugChar c) = true := by
  unfold slugChar
  by_cases h : isSlugChar c = true
  · rw [if_pos h]; exact h
  · rw [if_neg h]; decide

/-- Slug-class characters are left alone by the replacement map. -/
theorem slugChar_eq_self (c : Char) (h : isSlugChar c = true) : slugChar c = c := by
  unfold slugChar
  rw [if_pos h]

/-- Slug-class characters are already lowercase: `Char.toLower` fixes
them. -/
theorem toLower_eq_self (c : Char) (h : isSlugChar c = true) : c.toLower = c := by
  unfold isSlugChar at h
  have hd := of_decide_eq_true h
  rcases hd with ⟨h1, h2⟩ | ⟨h1, h2⟩ | rfl | rfl
  · have h1n : 97 ≤ c.toNat := h1
    have h2n : c.toNat ≤ 122 := h2
    unfold Char.toLower
    rw [if_neg (by omega)]
  · have h1n : 48 ≤ c.toNat := h1
    have h2n : c.toNat ≤ 57 := h2
    unfold Char.toLower
    rw [if_neg (by omega)]
  · decide
  · decide

/-- Collapsing hyphen runs never invents characters. -/
theorem mem_collapseDashes {c : Char} : ∀ l : List Char, c ∈ collapseDashes l → c ∈ l := by
  intro l
  induction l with
  | nil => simp [collapseDashes]
  | cons a rest ih =>
    cases rest with
    | nil => simp [collapseDashes]
    | cons b rest2 =>
      intro h
      simp only [collapseDashes] at h
      by_cases hab : a = '-' ∧ b = '-'
      · rw [if_pos hab] at h
        exact List.mem_cons_of_mem _ (ih h)
      · rw [if_neg hab] at h
        rcases List.mem_cons.mp h with rfl | h2
        · exact List.mem_cons_self _ _
        · exact List.mem_cons_of_mem _ (ih h2)

/-- Collapsing hyphen runs keeps the first character. -/
theorem head?_collapseDashes : ∀ l : List Char, (collapseDashes l).head? = l.head? := by
  intro l
  induction l with
  | nil => rfl
  | cons a rest ih =>
    cases rest with
    | nil => rfl
    | cons b rest2 =>
      simp only [collapseDashes]
      by_cases hab : a = '-' ∧ b = '-'
      · rw [if_pos hab, ih]
        simp [hab.1, hab.2]
      · rw [if_neg hab]
        rfl

/-- After collapsing, no two adjacent characters are both hyphens. -/
theorem chain'_collapseDashes : ∀ l : List Char,
    List.Chain' (fun a b => ¬ (a = '-' ∧ b = '-')) (collapseDashes l) := by
  intro l
  induction l with
  | nil => simp [collapseDashes]
  | cons a rest ih =>
    cases rest with
    | nil => simp [collapseDashes]
    | cons b rest2 =>
      simp only [collapseDashes]
      by_cases hab : a = '-' ∧ b = '-'
      · rw [if_pos hab]; exact ih
      · rw [if_neg hab]
        rw [List.chain'_cons']
        refine ⟨?_, ih⟩
        intro y hy
        rw [head?_collapseDashes] at hy
        simp only [List.head?_cons, Option.mem_def, Option.some.injEq] at hy
        subst hy
        exact hab

/-- A list with no adjacent hyphen pair is a fixed point of collapsing. -/
theorem collapseDashes_of_chain' : ∀ l : List Char,
    List.Chain' (fun a b => ¬ (a = '-' ∧ b = '-')) l → collapseDashes l = l := by
  intro l
  induction l with
  | nil => intro _; rfl
  | cons a rest ih =>
    cases rest with
    | nil => intro _; rfl
    | cons b rest2 =>
      intro h
      rw [List.chain'_cons] at h
      simp only [collapseDashes]
      rw [if_neg h.1, ih h.2]

/-- The head surviving a `dropWhile` fails the predicate. -/
theorem head?_dropWhile_false (p : Char → Bool) : ∀ (l : List Char) (c : Char),
    (l.dropWhile p).head? = some c → p c = false := by
  intro l
  induction l with
  | nil => intro c h; simp at h
  | cons a rest ih =>
    intro c h
    rw [List.dropWhile_cons] at h
    by_cases hp : p a = true
    · rw [if_pos hp] at h
      exact ih c h
    · rw [if_neg hp] at h
      simp only [List.head?_cons, Option.some.injEq] at h
      subst h
      simpa using hp

/-- A list whose head fails the predicate is a fixed point of
`dropWhile`. -/
theorem dropWhile_eq_self_of_head (p : Char → Bool) (l : List Char)
    (h : ∀ c, l.head? = some c → p c = false) : l.dropWhile p = l := by
  cases l with
  | nil => rfl
  | cons a rest =>
    rw [List.dropWhile_cons, if_neg]
    simp [h a rfl]

/-- A nonempty prefix starts with the same character. -/
theorem isPrefix_head? {l₁ l₂ : List Char} (h : l₁ <+: l₂) (hne : l₁ ≠ []) :
    l₁.head? = l₂.head? := by
  obtain ⟨t, rfl⟩ := h
  cases l₁ with
  | nil => exact absurd rfl hne
  | cons a r => rfl

/-- Every character of a slug is in the slug class. -/
theorem slugList_chars (l : List Char) : ∀ c ∈ slugList l, isSlugChar c = true := by
  intro c hc
  unfold slugList at hc
  have h1 : c ∈ (collapseDashes ((l.map Char.toLower).map slugChar)).dropWhile (· == '-') :=
    ( List.rdropWhile_prefix _ _).sublist.subset hc
  have h2 : c ∈ collapseDashes ((l.map Char.toLower).map slugChar) :=
    List.dropWhile_subset _ h1
  have h3 : c ∈ (l.map Char.toLower).map slugChar := mem_collapseDashes _ h2
  obtain ⟨d, _, rfl⟩ := List.mem_map.mp h3
  exact isSlugChar_slugChar d

/-- A slug has no adjacent hyphen pair. -/
theorem chain'_slugList (l : List Char) :
    List.Chain' (fun a b => ¬ (a = '-' ∧ b = '-')) (slugList l) := by
  unfold slugList
  exact List.Chain'.prefix
    (List.Chain'.suffix (chain'_collapseDashes _) (List.dropWhile_suffix _))
    ( List.rdropWhile_prefix _ _)

/-- A slug does not start with a hyphen. -/
theorem head_slugList_not_dash (l : List Char) (c : Char)
    (hc : (slugList l).head? = some c) : (c == '-') = false := by
  have hne : slugList l ≠ [] := by
    intro h
    rw [h] at hc
    simp at hc
  unfold slugList at hc hne
  have hpre : ((((l.map Char.toLower).map slugChar) |> collapseDashes).dropWhile
        (· == '-')).rdropWhile (· == '-') <+:
      (((l.map Char.toLower).map slugChar) |> collapseDashes).dropWhile (· == '-') :=
    List.rdropWhile_prefix _ _
  rw [isPrefix_head? hpre hne] at hc
  exact head?_dropWhile_false _ _ c hc

/-- Slugification is a projection: applying it twice is the same as
applying it once (over character lists). -/
theorem slugList_idem (l : List Char) : slugList (slugList l) = slugList l := by
  have hchars := slugList_chars l
  have hmap1 : (slugList l).map Char.toLower = slugList l := by
    have := List.map_congr_left (fun c hc => toLower_eq_self c (hchars c hc))
    rw [this, List.map_id']
  have hmap2 : (slugList l).map slugChar = slugList l := by
    have := List.map_congr_left (fun c hc => slugChar_eq_self c (hchars c hc))
    rw [this, List.map_id']
  have hcollapse : collapseDashes (slugList l) = slugList l :=
    collapseDashes_of_chain' _ (chain'_slugList l)
  have hdrop : (slugList l).dropWhile (· == '-') = slugList l :=
    dropWhile_eq_self_of_head _ _ (head_slugList_not_dash l)
  have hrdrop : (slugList l).rdropWhile (· == '-') = slugList l := by
    unfold slugList
    exact List.rdropWhile_idempotent _ _
  show ((collapseDashes (((slugList l).map Char.toLower).map slugChar)).dropWhile
    (· == '-')).rdropWhile (· == '-') = slugList l
  rw [hmap1, hmap2, hcollapse, hdrop, hrdrop]

end Elevenify

namespace Elevenify

/-! ## Claim C8: slugify idempotence -/

/-- C8: `slugify(slugify(x)) = slugify(x)` for every input string — the
slugification pipeline (lowercase, replace characters outside
`[a-z0-9.-]` with `-`, collapse hyphen runs, strip boundary hyphens) is
idempotent. -/
theorem c8_slugify_idempotent (s : String) : slugify (slugify s) = slugify s := by
  unfold slugify
  exact congrArg String.mk (slugList_idem s.data)

end Elevenify
